import Mathlib

/-!
Verification of the conference paper management backend
(controllers `admin.controller.js`, `auth.controller.js`,
`reviewer.controller.js` and the Prisma schema/migrations).

The persistent store is modelled as lists of rows mirroring the Prisma
tables `Paper`, `Author`, `ReviewerAssignment`, `Review`, `Feedback`,
plus a list of stored file references modelling the file-storage
(Cloudinary) boundary.  Surrogate `SERIAL` ids and DB-generated
timestamps that no handler reads are omitted; a row is identified by its
content.  Paper statuses and review recommendations are kept as strings,
exactly as the JavaScript handlers compare and assign them.  An HTTP
error response is modelled by `ApiError`: the handlers' 404 is
`NotFound`, 403 is `Forbidden`, the 400 responses for malformed input
are `Validation`, the 400 responses whose message names the paper's
current status are `Conflict` (the spec's taxonomy name for
state-precondition failures), and the catch-all 500 is `ServerError`.
A handler that returns an error before performing any write is modelled
as a function returning `Except ApiError DB`; handlers whose error paths
themselves have effects (`resubmitPaper`, `deletePaper`) return the
response together with the resulting state.
-/

namespace ConferenceSystem

/-! ## Data model, handlers and example stores -/

/-- A row of the `Paper` table (fields the lifecycle handlers touch). -/
structure Paper where
  id : Nat
  title : String
  fileUrl : String
  status : String
  authorId : Nat
deriving DecidableEq

/-- A row of the `Author` table (structured co-author entries attached
to a paper; `isCorresponding` flags corresponding authors). -/
structure Author where
  paperId : Nat
  name : String
  email : Option String
  institute : Option String
  isCorresponding : Bool
deriving DecidableEq

/-- A row of the `ReviewerAssignment` join table.  The schema has the
unique index `ReviewerAssignment_reviewerId_paperId_key` on
(reviewerId, paperId). -/
structure ReviewerAssignment where
  reviewerId : Nat
  paperId : Nat
deriving DecidableEq

/-- A row of the `Review` table.  The schema has the unique index
`Review_paperId_reviewerId_key` on (paperId, reviewerId). -/
structure Review where
  paperId : Nat
  reviewerId : Nat
  comments : String
  recommendation : String
  reviewedAt : Nat
deriving DecidableEq

/-- A row of the `Feedback` table. -/
structure Feedback where
  paperId : Nat
  senderId : Nat
  message : String
deriving DecidableEq

/-- The persistent state: the database tables plus the set of file
references currently held by the file-storage provider. -/
structure DB where
  papers : List Paper
  authors : List Author
  assignments : List ReviewerAssignment
  reviews : List Review
  feedbacks : List Feedback
  storedFiles : List String
deriving DecidableEq

/-- Error responses of the handlers (see module comment for the mapping
to HTTP statuses). -/
inductive ApiError where
  | NotFound
  | Forbidden
  | Validation
  | Conflict (message : String)
  | ServerError
deriving DecidableEq

/-- `prisma.paper.findUnique({ where: { id } })`: the first (in a real
database: only) paper with the given id. -/
def findPaper (db : DB) (pid : Nat) : Option Paper :=
  db.papers.find? (fun p => p.id == pid)

/-- `prisma.paper.update({ where: { id }, data: { status } })`:
set the status of the paper(s) with the given id. -/
def setStatus (pid : Nat) (s : String) (ps : List Paper) : List Paper :=
  ps.map (fun p => if p.id == pid then { p with status := s } else p)

/-- The status of the paper with the given id, if it exists. -/
def statusOf (db : DB) (pid : Nat) : Option String :=
  (findPaper db pid).map (fun p => p.status)

/-- `approvePaper` (admin.controller.js): 404 if the paper does not
exist; 400 naming the current status unless it is `PENDING_APPROVAL`;
otherwise set the status to `PENDING_REVIEW`.  (Notification emails are
fire-and-forget and change no persistent state.) -/
def approvePaper (db : DB) (pid : Nat) : Except ApiError DB :=
  match findPaper db pid with
  | none => .error .NotFound
  | some paper =>
    if paper.status == "PENDING_APPROVAL" then
      .ok { db with papers := setStatus pid "PENDING_REVIEW" db.papers }
    else
      .error (.Conflict
        ("Paper is already " ++ paper.status ++ " and cannot be approved."))

/-- A one-paper database whose paper is `PENDING_APPROVAL`, used for
concrete evaluations. -/
def pendingDB : DB :=
  { papers := [{ id := 1, title := "T", fileUrl := "conference_papers/f1",
                 status := "PENDING_APPROVAL", authorId := 10 }],
    authors := [], assignments := [], reviews := [], feedbacks := [],
    storedFiles := ["conference_papers/f1"] }

/-- Number of `ReviewerAssignment` rows with a given
(reviewerId, paperId) key. -/
def countAssign (l : List ReviewerAssignment) (rid pid : Nat) : Nat :=
  (l.filter (fun a => a.reviewerId == rid && a.paperId == pid)).length

/-- `prisma.reviewerAssignment.createMany({ data, skipDuplicates: true })`:
insert one row per requested reviewer id, skipping any row whose
(reviewerId, paperId) key is already present (the unique index
`ReviewerAssignment_reviewerId_paperId_key` together with
ON CONFLICT DO NOTHING also skips duplicates arising within the batch,
so insertion is processed left to right against the growing table). -/
def insertAssignmentsSkipDup (l : List ReviewerAssignment) (pid : Nat) :
    List Nat → List ReviewerAssignment
  | [] => l
  | rid :: rids =>
    if l.any (fun a => a.reviewerId == rid && a.paperId == pid) then
      insertAssignmentsSkipDup l pid rids
    else
      insertAssignmentsSkipDup
        (l ++ [{ reviewerId := rid, paperId := pid }]) pid rids

/-- `assignReviewersToPaper` (admin.controller.js): 400 if the reviewer
id list is missing or empty; 404 if the paper does not exist; otherwise
create the assignment rows (duplicates skipped) and, when the paper's
status is `PENDING_REVIEW` or `RESUBMITTED`, set it to `UNDER_REVIEW`. -/
def assignReviewersToPaper (db : DB) (pid : Nat) (rids : List Nat) :
    Except ApiError DB :=
  if rids.isEmpty then .error .Validation
  else
    match findPaper db pid with
    | none => .error .NotFound
    | some paper =>
      if paper.status == "PENDING_REVIEW" || paper.status == "RESUBMITTED" then
        .ok { db with
              assignments := insertAssignmentsSkipDup db.assignments pid rids,
              papers := setStatus pid "UNDER_REVIEW" db.papers }
      else
        .ok { db with
              assignments := insertAssignmentsSkipDup db.assignments pid rids }

/-- A one-paper database whose paper is `PENDING_REVIEW`. -/
def reviewDB : DB :=
  { papers := [{ id := 1, title := "T", fileUrl := "conference_papers/f1",
                 status := "PENDING_REVIEW", authorId := 10 }],
    authors := [], assignments := [], reviews := [], feedbacks := [],
    storedFiles := ["conference_papers/f1"] }

/-- `prisma.reviewerAssignment.findUnique` on the unique key
(reviewerId, paperId): whether an assignment row exists. -/
def hasAssignment (l : List ReviewerAssignment) (rid pid : Nat) : Bool :=
  l.any (fun a => a.reviewerId == rid && a.paperId == pid)

/-- The unique key of the `Review` table, as a predicate on rows. -/
def reviewKey (pid rid : Nat) : Review → Bool :=
  fun r => r.paperId == pid && r.reviewerId == rid

/-- `prisma.review.upsert` on the unique key (paperId, reviewerId):
update comments, recommendation and timestamp in place when a row with
the key exists, insert a new row otherwise. -/
def upsertReview (l : List Review) (pid rid : Nat) (c rec : String)
    (t : Nat) : List Review :=
  if l.any (reviewKey pid rid) then
    l.map (fun r =>
      if reviewKey pid rid r then
        { r with comments := c, recommendation := rec, reviewedAt := t }
      else r)
  else
    l ++ [{ paperId := pid, reviewerId := rid, comments := c,
            recommendation := rec, reviewedAt := t }]

/-- `prisma.paper.updateMany({ where: { id, OR: [PENDING_REVIEW,
RESUBMITTED] }, data: { status: UNDER_REVIEW } })`. -/
def bumpToUnderReview (pid : Nat) (ps : List Paper) : List Paper :=
  ps.map (fun p =>
    if p.id == pid && (p.status == "PENDING_REVIEW"
        || p.status == "RESUBMITTED")
    then { p with status := "UNDER_REVIEW" } else p)

/-- `submitReview` (admin.controller.js, reviewer flow): 403 unless an
assignment row exists for (reviewer, paper); otherwise upsert the Review
row for the key and move the paper from `PENDING_REVIEW`/`RESUBMITTED`
to `UNDER_REVIEW`.  `t` is the call's current time (`new Date()`, or the
column's CURRENT_TIMESTAMP default on insert). -/
def submitReview (db : DB) (rid pid : Nat) (c rec : String) (t : Nat) :
    Except ApiError DB :=
  if hasAssignment db.assignments rid pid then
    .ok { db with
          reviews := upsertReview db.reviews pid rid c rec t,
          papers := bumpToUnderReview pid db.papers }
  else
    .error .Forbidden

/-- `submitFeedback` (reviewer.controller.js): 403 unless an assignment
row exists for (sender, paper); otherwise append a Feedback row. -/
def reviewerSubmitFeedback (db : DB) (rid pid : Nat) (msg : String) :
    Except ApiError DB :=
  if hasAssignment db.assignments rid pid then
    .ok { db with feedbacks := db.feedbacks ++
          [{ paperId := pid, senderId := rid, message := msg }] }
  else
    .error .Forbidden

/-- A database with one `UNDER_REVIEW` paper and one reviewer
assignment for it. -/
def assignedDB : DB :=
  { papers := [{ id := 1, title := "T", fileUrl := "conference_papers/f1",
                 status := "UNDER_REVIEW", authorId := 10 }],
    authors := [], assignments := [{ reviewerId := 5, paperId := 1 }],
    reviews := [], feedbacks := [],
    storedFiles := ["conference_papers/f1"] }

/-- `cloudinary.uploader.destroy`: remove a reference from the file
store. -/
def removeStoredFile (ref : String) (files : List String) : List String :=
  files.filter (fun f => !(f == ref))

/-- The `prisma.paper.update` of `resubmitPaper`: replace `fileUrl` and
set status `RESUBMITTED` on the paper with the given id. -/
def replaceFile (pid : Nat) (newFile : String) (ps : List Paper) :
    List Paper :=
  ps.map (fun p =>
    if p.id == pid then { p with fileUrl := newFile, status := "RESUBMITTED" }
    else p)

/-- `resubmitPaper` (auth.controller.js): the upload middleware has
already stored `newFile`; 404 unless a paper with this id whose primary
author (`authorId`) is the caller exists; when its status is not
`REVISION_REQUIRED`, destroy the newly uploaded file and answer 400
naming the status; otherwise replace `fileUrl` with the new file, set
status `RESUBMITTED`, and destroy the old file (when non-empty; the JS
guard `if (oldFileUrl)`). -/
def resubmitPaper (db : DB) (aid pid : Nat) (newFile : String) :
    Except ApiError Unit × DB :=
  match db.papers.find? (fun p => p.id == pid && p.authorId == aid) with
  | none => (.error .NotFound, db)
  | some paper =>
    if paper.status == "REVISION_REQUIRED" then
      if paper.fileUrl == "" then
        (.ok (), { db with papers := replaceFile pid newFile db.papers })
      else
        (.ok (),
         { db with
           papers := replaceFile pid newFile db.papers,
           storedFiles := removeStoredFile paper.fileUrl db.storedFiles })
    else
      (.error (.Conflict
        ("Paper cannot be resubmitted with status: " ++ paper.status)),
       { db with storedFiles := removeStoredFile newFile db.storedFiles })

/-- The `fileUrl` of the paper with the given id, if it exists. -/
def fileUrlOf (db : DB) (pid : Nat) : Option String :=
  (findPaper db pid).map (fun p => p.fileUrl)

/-- A one-paper database whose paper is `REVISION_REQUIRED`, with the
old manuscript and a freshly uploaded revision in the file store. -/
def revisionDB : DB :=
  { papers := [{ id := 1, title := "T", fileUrl := "conference_papers/old",
                 status := "REVISION_REQUIRED", authorId := 10 }],
    authors := [], assignments := [], reviews := [], feedbacks := [],
    storedFiles := ["conference_papers/old", "conference_papers/new"] }

/-- The delete-cascade transaction of `deletePaper`
(`prisma.$transaction([...])`): remove the paper's Feedback, Review,
ReviewerAssignment and Author rows and the Paper row itself as one
atomic unit. -/
def deletePaperTx (pid : Nat) (db : DB) : DB :=
  { db with
    feedbacks := db.feedbacks.filter (fun f => !(f.paperId == pid)),
    reviews := db.reviews.filter (fun r => !(r.paperId == pid)),
    assignments := db.assignments.filter (fun a => !(a.paperId == pid)),
    authors := db.authors.filter (fun a => !(a.paperId == pid)),
    papers := db.papers.filter (fun p => !(p.id == pid)) }

/-- Step 1 of `deletePaper`: destroy the stored manuscript file (the JS
guard `if (oldFileUrl)`; a storage failure is only logged). -/
def destroyPaperFile (paper : Paper) (db : DB) : DB :=
  if paper.fileUrl == "" then db
  else { db with storedFiles := removeStoredFile paper.fileUrl db.storedFiles }

/-- `deletePaper` (admin.controller.js): 404 if the paper does not
exist; otherwise destroy the stored file first and only then run the
delete-cascade transaction.  `txOk` injects the fate of the
transaction: when it fails (throws), the catch block answers 500 with
the rows untouched — but the file destruction has already happened. -/
def deletePaper (db : DB) (pid : Nat) (txOk : Bool) :
    Except ApiError Unit × DB :=
  match findPaper db pid with
  | none => (.error .NotFound, db)
  | some paper =>
    if txOk then (.ok (), deletePaperTx pid (destroyPaperFile paper db))
    else (.error .ServerError, destroyPaperFile paper db)

/-- A database with one paper plus an author entry, an assignment, a
review and a feedback row all referencing it. -/
def fullDB : DB :=
  { papers := [{ id := 1, title := "T", fileUrl := "conference_papers/f1",
                 status := "UNDER_REVIEW", authorId := 10 }],
    authors := [{ paperId := 1, name := "B", email := some "b@x.com",
                  institute := some "I", isCorresponding := true }],
    assignments := [{ reviewerId := 5, paperId := 1 }],
    reviews := [{ paperId := 1, reviewerId := 5, comments := "ok",
                  recommendation := "ACCEPT", reviewedAt := 3 }],
    feedbacks := [{ paperId := 1, senderId := 10, message := "hi" }],
    storedFiles := ["conference_papers/f1"] }

/-- The author-side paper access query (auth.controller.js,
`getAuthorPaperById` and the author `submitFeedback`):
`findFirst({ where: { id, OR: [{ authorId }, { authors: { some:
{ email } } }] } })` — the caller is the paper's primary author, or some
Author entry of the paper carries the caller's email; the query places
no condition on `isCorresponding`. -/
def getAuthorPaperById (db : DB) (uid : Nat) (email : String)
    (pid : Nat) : Option Paper :=
  db.papers.find? (fun p => p.id == pid &&
    (p.authorId == uid ||
      db.authors.any (fun a => a.paperId == p.id && a.email == some email)))

/-- Whether the author-side access query grants access to the paper. -/
def authorCanAccess (db : DB) (uid : Nat) (email : String)
    (pid : Nat) : Bool :=
  (getAuthorPaperById db uid email pid).isSome

/-- Author `submitFeedback` (auth.controller.js): 403 unless the access
query matches; otherwise append a Feedback row. -/
def authorSubmitFeedback (db : DB) (uid : Nat) (email : String)
    (pid : Nat) (msg : String) : Except ApiError DB :=
  match getAuthorPaperById db uid email pid with
  | none => .error .Forbidden
  | some _ => .ok { db with feedbacks := db.feedbacks ++
      [{ paperId := pid, senderId := uid, message := msg }] }

/-- Modelled from the spec: "Paper-scoped permission for AUTHOR: caller
is permitted if they are the paper's primary author OR their email
matches a corresponding-Author entry on the paper" — the email match is
restricted to Author entries flagged `isCorresponding`. -/
def authorCanAccessSpec (db : DB) (uid : Nat) (email : String)
    (pid : Nat) : Bool :=
  db.papers.any (fun p => p.id == pid &&
    (p.authorId == uid ||
      db.authors.any (fun a => a.paperId == p.id && a.isCorresponding &&
        a.email == some email)))

/-- A database whose paper 1 (primary author 10) has a single,
non-corresponding Author entry with email `co@x.com`. -/
def nonCorrDB : DB :=
  { papers := [{ id := 1, title := "T", fileUrl := "conference_papers/f1",
                 status := "UNDER_REVIEW", authorId := 10 }],
    authors := [{ paperId := 1, name := "C", email := some "co@x.com",
                  institute := none, isCorresponding := false }],
    assignments := [], reviews := [], feedbacks := [],
    storedFiles := ["conference_papers/f1"] }

/-- The allow-list of `updatePaperStatus` (admin.controller.js),
`allowedStatuses`. -/
def allowedStatuses : List String :=
  ["ACCEPTED", "REJECTED", "REVISION_REQUIRED"]

/-- `updatePaperStatus` (admin.controller.js): 400 unless the requested
status is on the allow-list (`!status || !allowedStatuses.includes`);
404 if the paper does not exist; otherwise set the status — the current
status is never consulted. -/
def updatePaperStatus (db : DB) (pid : Nat) (target : String) :
    Except ApiError DB :=
  if !(allowedStatuses.contains target) then .error .Validation
  else
    match findPaper db pid with
    | none => .error .NotFound
    | some _ => .ok { db with papers := setStatus pid target db.papers }

/-- `submitPaper` (auth.controller.js): create the Paper at the schema
default status `PENDING_APPROVAL`, with its nested Author entries (each
entry attached to the new paper's id); the uploaded manuscript is
already in the file store. -/
def submitPaper (db : DB) (pid : Nat) (title fileUrl : String)
    (aid : Nat) (entries : List Author) : DB :=
  { db with
    papers := db.papers ++
      [{ id := pid, title := title, fileUrl := fileUrl,
         status := "PENDING_APPROVAL", authorId := aid }],
    authors := db.authors ++ entries.map (fun e => { e with paperId := pid }) }

/-- The paper-status vocabulary of the application: the schema enum
values plus the `RESUBMITTED` value assigned by resubmission. -/
def validStatuses : List String :=
  ["PENDING_APPROVAL", "PENDING_REVIEW", "UNDER_REVIEW", "RESUBMITTED",
   "ACCEPTED", "REJECTED", "REVISION_REQUIRED"]

/-- Every status in a list of papers belongs to the fixed set. -/
def statusesOk (ps : List Paper) : Bool :=
  ps.all (fun p => validStatuses.contains p.status)

/-- Every stored paper's status belongs to the fixed set. -/
def statusInv (db : DB) : Bool :=
  statusesOk db.papers

/-- The state after a handler returning `Except`: unchanged when the
handler answered an error. -/
def applyE (db : DB) : Except ApiError DB → DB
  | .ok db2 => db2
  | .error _ => db

/-- One lifecycle request with its parameters. -/
inductive Action where
  | submit (pid : Nat) (title fileUrl : String) (aid : Nat)
      (entries : List Author)
  | approve (pid : Nat)
  | assign (pid : Nat) (rids : List Nat)
  | review (rid pid : Nat) (c rec : String) (t : Nat)
  | setFinal (pid : Nat) (target : String)
  | resubmit (aid pid : Nat) (newFile : String)
  | delete (pid : Nat) (txOk : Bool)
  | authorFeedback (uid : Nat) (email : String) (pid : Nat) (msg : String)
  | reviewerFeedback (rid pid : Nat) (msg : String)

/-- The store after one lifecycle request. -/
def applyAction (db : DB) : Action → DB
  | .submit pid t f aid es => submitPaper db pid t f aid es
  | .approve pid => applyE db (approvePaper db pid)
  | .assign pid rids => applyE db (assignReviewersToPaper db pid rids)
  | .review rid pid c rec t => applyE db (submitReview db rid pid c rec t)
  | .setFinal pid target => applyE db (updatePaperStatus db pid target)
  | .resubmit aid pid nf => (resubmitPaper db aid pid nf).2
  | .delete pid txOk => (deletePaper db pid txOk).2
  | .authorFeedback uid em pid msg =>
      applyE db (authorSubmitFeedback db uid em pid msg)
  | .reviewerFeedback rid pid msg =>
      applyE db (reviewerSubmitFeedback db rid pid msg)

/-- A one-paper database whose paper is `ACCEPTED`. -/
def acceptedDB : DB :=
  { papers := [{ id := 1, title := "T", fileUrl := "conference_papers/f1",
                 status := "ACCEPTED", authorId := 10 }],
    authors := [], assignments := [], reviews := [], feedbacks := [],
    storedFiles := ["conference_papers/f1"] }

/-! ## Lemmas and claim theorems -/

theorem find?_map_id_pres (f : Paper → Paper)
    (hf : ∀ p, (f p).id = p.id) (q : Nat) (ps : List Paper) :
    (ps.map f).find? (fun p => p.id == q) =
      (ps.find? (fun p => p.id == q)).map f := by
  induction ps with
  | nil => rfl
  | cons p ps ih =>
    by_cases h : p.id = q
    · have h1 : ((f p).id == q) = true := by simp [hf, h]
      have h2 : (p.id == q) = true := by simp [h]
      simp [List.find?, h1, h2]
    · have h1 : ((f p).id == q) = false := by simp [hf, h]
      have h2 : (p.id == q) = false := by simp [h]
      simp [List.find?, h1, h2, ih]

theorem find?_setStatus (pid : Nat) (s : String) (ps : List Paper) (q : Nat) :
    (setStatus pid s ps).find? (fun p => p.id == q) =
      (ps.find? (fun p => p.id == q)).map
        (fun p => if p.id == pid then { p with status := s } else p) := by
  apply find?_map_id_pres
  intro p
  by_cases h : p.id = pid <;> simp [h]

theorem findPaper_setStatus_self (db : DB) (pid : Nat) (s : String) (p : Paper)
    (hf : findPaper db pid = some p) :
    findPaper { db with papers := setStatus pid s db.papers } pid =
      some { p with status := s } := by
  unfold findPaper at hf ⊢
  have hkey := List.find?_some hf
  simp only [beq_iff_eq] at hkey
  simp [find?_setStatus, hf, hkey]

theorem approve_ok_elim (db : DB) (pid : Nat) (db2 : DB)
    (h : approvePaper db pid = .ok db2) :
    ∃ p, findPaper db pid = some p ∧ p.status = "PENDING_APPROVAL" ∧
      db2 = { db with papers := setStatus pid "PENDING_REVIEW" db.papers } := by
  unfold approvePaper at h
  split at h
  · exact absurd h (by simp)
  · rename_i p hf
    split at h
    · rename_i hb
      cases h
      exact ⟨p, hf, by simpa using hb, rfl⟩
    · exact absurd h (by simp)

/-- **C1.** Approve succeeds if and only if the paper exists with status
`PENDING_APPROVAL`; a successful call sets the status to
`PENDING_REVIEW`, after which a second Approve fails with a Conflict
error naming `PENDING_REVIEW`; a call on a paper in any other status
fails with a Conflict error naming the current status (and, returning
before any write, leaves the state unchanged).  Hence Approve applied
twice succeeds exactly once and leaves the status `PENDING_REVIEW`. -/
theorem approve_correct (db : DB) (pid : Nat) :
    ((∃ db2, approvePaper db pid = .ok db2) ↔
      ∃ p, findPaper db pid = some p ∧ p.status = "PENDING_APPROVAL") ∧
    (∀ db2, approvePaper db pid = .ok db2 →
      statusOf db2 pid = some "PENDING_REVIEW" ∧
      approvePaper db2 pid = .error (.Conflict
        "Paper is already PENDING_REVIEW and cannot be approved.")) ∧
    (∀ p, findPaper db pid = some p → p.status ≠ "PENDING_APPROVAL" →
      approvePaper db pid = .error (.Conflict
        ("Paper is already " ++ p.status ++ " and cannot be approved."))) := by
  refine ⟨⟨?_, ?_⟩, ?_, ?_⟩
  · rintro ⟨db2, h⟩
    obtain ⟨p, hf, hs, _⟩ := approve_ok_elim db pid db2 h
    exact ⟨p, hf, hs⟩
  · rintro ⟨p, hf, hs⟩
    refine ⟨{ db with papers := setStatus pid "PENDING_REVIEW" db.papers }, ?_⟩
    unfold approvePaper
    rw [hf]
    simp [hs]
  · intro db2 h
    obtain ⟨p, hf, _, hdb2⟩ := approve_ok_elim db pid db2 h
    subst hdb2
    have hfind := findPaper_setStatus_self db pid "PENDING_REVIEW" p hf
    constructor
    · unfold statusOf
      rw [hfind]
      rfl
    · unfold approvePaper
      rw [hfind]
      rfl
  · intro p hf hs
    unfold approvePaper
    rw [hf]
    have hb : (p.status == "PENDING_APPROVAL") = false := by simp [hs]
    simp [hb]

/-- Witness for C1 at a concrete database: approving the `ACCEPTED`
paper of `acceptedDB` fails with the Conflict error naming its
status. -/
theorem approve_correct_witness :
    approvePaper acceptedDB 1 = .error (.Conflict
      "Paper is already ACCEPTED and cannot be approved.") :=
  (approve_correct acceptedDB 1).2.2
    { id := 1, title := "T", fileUrl := "conference_papers/f1",
      status := "ACCEPTED", authorId := 10 } rfl (by decide)

theorem countAssign_append_single (l : List ReviewerAssignment)
    (a : ReviewerAssignment) (rid pid : Nat) :
    countAssign (l ++ [a]) rid pid =
      countAssign l rid pid +
        (if rid = a.reviewerId ∧ pid = a.paperId then 1 else 0) := by
  unfold countAssign
  rw [List.filter_append, List.length_append]
  congr 1
  by_cases h : rid = a.reviewerId ∧ pid = a.paperId
  · obtain ⟨h1, h2⟩ := h
    simp [List.filter, h1, h2]
  · have h2 : ¬(a.reviewerId = rid ∧ a.paperId = pid) := by
      intro hc
      exact h ⟨hc.1.symm, hc.2.symm⟩
    have hb : (a.reviewerId == rid && a.paperId == pid) = false := by
      by_cases h1 : a.reviewerId = rid
      · by_cases hp : a.paperId = pid
        · exact absurd ⟨h1, hp⟩ h2
        · simp [h1, hp]
      · simp [h1]
    simp [List.filter, hb, h]

theorem countAssign_pos_iff (l : List ReviewerAssignment) (rid pid : Nat) :
    (l.any (fun a => a.reviewerId == rid && a.paperId == pid)) = true ↔
      0 < countAssign l rid pid := by
  rw [countAssign, List.length_pos_iff_exists_mem]
  simp [List.any_eq_true, List.mem_filter]

theorem countAssign_insert (pid : Nat) (rids : List Nat)
    (l : List ReviewerAssignment) (rid q : Nat) :
    countAssign (insertAssignmentsSkipDup l pid rids) rid q =
      if q = pid ∧ rid ∈ rids then Nat.max (countAssign l rid q) 1
      else countAssign l rid q := by
  induction rids generalizing l with
  | nil => simp [insertAssignmentsSkipDup]
  | cons i rids ih =>
    rw [insertAssignmentsSkipDup]
    by_cases hany : (l.any (fun a => a.reviewerId == i && a.paperId == pid)) = true
    · rw [if_pos hany, ih]
      have h0 : 0 < countAssign l i pid := (countAssign_pos_iff l i pid).mp hany
      by_cases hq : q = pid <;> by_cases hri : rid = i <;>
        by_cases hr : rid ∈ rids <;>
        simp_all [List.mem_cons] <;> omega
    · rw [if_neg hany, ih]
      have h0 : countAssign l i pid = 0 := by
        have := (countAssign_pos_iff l i pid).not.mp hany
        omega
      have hexp := countAssign_append_single l
        { reviewerId := i, paperId := pid } rid q
      by_cases hq : q = pid <;> by_cases hri : rid = i <;>
        by_cases hr : rid ∈ rids <;>
        simp_all [List.mem_cons] <;> omega

/-- **C2.** For every existing paper and every non-empty reviewer id
list, assignment succeeds; the resulting assignment table has, for each
(reviewer, paper) key, `max(previous count, 1)` rows when the key is
targeted by the call and the previous count otherwise — so re-assigning
an already-assigned reviewer adds no second row, a fresh key gets
exactly one row (also when repeated inside one call), and any sequence
of assign calls leaves at most one row per key; the paper's status
becomes `UNDER_REVIEW` exactly when it was `PENDING_REVIEW` or
`RESUBMITTED` before the call, and is unchanged otherwise. -/
theorem assignReviewers_correct (db : DB) (pid : Nat) (rids : List Nat)
    (p : Paper) (hp : findPaper db pid = some p) (hne : rids ≠ []) :
    ∃ db2, assignReviewersToPaper db pid rids = .ok db2 ∧
      (∀ rid q, countAssign db2.assignments rid q =
        if q = pid ∧ rid ∈ rids
        then Nat.max (countAssign db.assignments rid q) 1
        else countAssign db.assignments rid q) ∧
      statusOf db2 pid =
        some (if p.status == "PENDING_REVIEW" || p.status == "RESUBMITTED"
              then "UNDER_REVIEW" else p.status) := by
  have hemp : rids.isEmpty = false := by
    cases rids with
    | nil => exact absurd rfl hne
    | cons a l => rfl
  by_cases hst : (p.status == "PENDING_REVIEW" || p.status == "RESUBMITTED") = true
  · refine ⟨{ db with
        assignments := insertAssignmentsSkipDup db.assignments pid rids,
        papers := setStatus pid "UNDER_REVIEW" db.papers }, ?_, ?_, ?_⟩
    · unfold assignReviewersToPaper
      simp only [hemp, Bool.false_eq_true, if_false, hp, hst, if_true]
    · intro rid q
      exact countAssign_insert pid rids db.assignments rid q
    · have hf1 : findPaper
          { db with assignments := insertAssignmentsSkipDup db.assignments pid rids }
          pid = some p := hp
      have h2 := findPaper_setStatus_self
        { db with assignments := insertAssignmentsSkipDup db.assignments pid rids }
        pid "UNDER_REVIEW" p hf1
      unfold statusOf
      rw [if_pos hst]
      rw [show findPaper { db with
            assignments := insertAssignmentsSkipDup db.assignments pid rids,
            papers := setStatus pid "UNDER_REVIEW" db.papers } pid =
          some { p with status := "UNDER_REVIEW" } from h2]
      rfl
  · refine ⟨{ db with
        assignments := insertAssignmentsSkipDup db.assignments pid rids }, ?_, ?_, ?_⟩
    · unfold assignReviewersToPaper
      simp only [hemp, Bool.false_eq_true, if_false, hp, hst]
    · intro rid q
      exact countAssign_insert pid rids db.assignments rid q
    · have hf1 : findPaper
          { db with assignments := insertAssignmentsSkipDup db.assignments pid rids }
          pid = some p := hp
      unfold statusOf
      rw [if_neg hst, hf1]
      rfl

/-- Witness for C2: assigning reviewers `[5, 5, 7]` (with an in-batch
duplicate) to the `PENDING_REVIEW` paper of `reviewDB` yields exactly
one row for reviewer 5 and moves the paper to `UNDER_REVIEW`. -/
theorem assignReviewers_correct_witness :
    countAssign (applyE reviewDB
      (assignReviewersToPaper reviewDB 1 [5, 5, 7])).assignments 5 1 = 1 ∧
    statusOf (applyE reviewDB
      (assignReviewersToPaper reviewDB 1 [5, 5, 7])) 1 =
      some "UNDER_REVIEW" := by
  obtain ⟨db2, h1, h2, h3⟩ := assignReviewers_correct reviewDB 1 [5, 5, 7]
    { id := 1, title := "T", fileUrl := "conference_papers/f1",
      status := "PENDING_REVIEW", authorId := 10 } rfl (by decide)
  rw [h1]
  constructor
  · show countAssign db2.assignments 5 1 = 1
    rw [h2 5 1]
    rfl
  · show statusOf db2 1 = some "UNDER_REVIEW"
    rw [h3]
    rfl

theorem filter_map_key_pres {α : Type} (key : α → Bool) (f : α → α)
    (hf : ∀ a, key (f a) = key a) (l : List α) :
    (l.map f).filter key = (l.filter key).map f := by
  induction l with
  | nil => rfl
  | cons a l ih =>
    by_cases h : key a = true
    · simp [List.filter, hf, h, ih]
    · simp only [Bool.not_eq_true] at h
      simp [List.filter, hf, h, ih]

theorem filter_upsertReview (l : List Review) (pid rid : Nat)
    (c rec : String) (t : Nat)
    (hinv : (l.filter (reviewKey pid rid)).length ≤ 1) :
    (upsertReview l pid rid c rec t).filter (reviewKey pid rid) =
      [{ paperId := pid, reviewerId := rid, comments := c,
         recommendation := rec, reviewedAt := t }] := by
  unfold upsertReview
  by_cases hany : (l.any (reviewKey pid rid)) = true
  · rw [if_pos hany]
    have hkey : ∀ r : Review,
        reviewKey pid rid (if reviewKey pid rid r then
          { r with comments := c, recommendation := rec, reviewedAt := t }
          else r) = reviewKey pid rid r := by
      intro r
      by_cases h : reviewKey pid rid r = true
      · rw [if_pos h, h]
        obtain ⟨h1, h2⟩ := by simpa [reviewKey] using h
        simp [reviewKey, h1, h2]
      · simp only [Bool.not_eq_true] at h
        simp [h]
    rw [filter_map_key_pres _ _ hkey]
    obtain ⟨r0, hmem, hr0⟩ := List.any_eq_true.mp hany
    have hpos : 0 < (l.filter (reviewKey pid rid)).length := by
      have : r0 ∈ l.filter (reviewKey pid rid) :=
        List.mem_filter.mpr ⟨hmem, hr0⟩
      exact List.length_pos_iff_exists_mem.mpr ⟨r0, this⟩
    have hone : (l.filter (reviewKey pid rid)).length = 1 := by omega
    obtain ⟨r1, hr1⟩ := List.length_eq_one.mp hone
    have hr1key : reviewKey pid rid r1 = true := by
      have : r1 ∈ l.filter (reviewKey pid rid) := by
        rw [hr1]; exact List.mem_cons_self r1 []
      exact (List.mem_filter.mp this).2
    obtain ⟨h1, h2⟩ := by simpa [reviewKey] using hr1key
    rw [hr1]
    simp [List.map, hr1key, h1, h2]
  · rw [if_neg hany]
    rw [List.filter_append]
    have hnil : l.filter (reviewKey pid rid) = [] := by
      rw [List.filter_eq_nil]
      intro r hmem
      simp only [Bool.not_eq_true]
      by_contra hc
      simp only [Bool.not_eq_false] at hc
      exact hany (List.any_eq_true.mpr ⟨r, hmem, hc⟩)
    rw [hnil]
    simp [reviewKey]

/-- **C3.** When the reviewer is assigned and the store satisfies the
(paperId, reviewerId) uniqueness invariant of the `Review` table, two
successive review submissions by the same reviewer both succeed and
leave exactly one Review row for the pair, carrying the second call's
comments and recommendation with its timestamp refreshed to the second
call's time. -/
theorem submitReview_replaces (db : DB) (rid pid : Nat)
    (c1 rec1 c2 rec2 : String) (t1 t2 : Nat)
    (hassign : hasAssignment db.assignments rid pid = true)
    (hinv : (db.reviews.filter (reviewKey pid rid)).length ≤ 1) :
    ∃ db1 db2, submitReview db rid pid c1 rec1 t1 = .ok db1 ∧
      submitReview db1 rid pid c2 rec2 t2 = .ok db2 ∧
      db2.reviews.filter (reviewKey pid rid) =
        [{ paperId := pid, reviewerId := rid, comments := c2,
           recommendation := rec2, reviewedAt := t2 }] := by
  refine ⟨{ db with
      reviews := upsertReview db.reviews pid rid c1 rec1 t1,
      papers := bumpToUnderReview pid db.papers },
    { db with
      reviews := upsertReview (upsertReview db.reviews pid rid c1 rec1 t1)
        pid rid c2 rec2 t2,
      papers := bumpToUnderReview pid (bumpToUnderReview pid db.papers) },
    ?_, ?_, ?_⟩
  · unfold submitReview
    rw [if_pos hassign]
  · unfold submitReview
    rw [if_pos (show hasAssignment
      ({ db with
         reviews := upsertReview db.reviews pid rid c1 rec1 t1,
         papers := bumpToUnderReview pid db.papers } : DB).assignments
        rid pid = true from hassign)]
  · have h1 := filter_upsertReview db.reviews pid rid c1 rec1 t1 hinv
    have hlen : ((upsertReview db.reviews pid rid c1 rec1 t1).filter
        (reviewKey pid rid)).length ≤ 1 := by
      rw [h1]
      exact Nat.le_refl 1
    exact filter_upsertReview _ pid rid c2 rec2 t2 hlen

/-- Witness for C3: reviewer 5 submits twice on `assignedDB`; after the
second call the single Review row for the pair carries the second
call's content and timestamp. -/
theorem submitReview_replaces_witness :
    ((applyE
      (applyE assignedDB (submitReview assignedDB 5 1 "weak" "REJECT" 3))
      (submitReview
        (applyE assignedDB (submitReview assignedDB 5 1 "weak" "REJECT" 3))
        5 1 "good" "ACCEPT" 7)).reviews.filter (reviewKey 1 5)) =
      [{ paperId := 1, reviewerId := 5, comments := "good",
         recommendation := "ACCEPT", reviewedAt := 7 }] := by
  obtain ⟨db1, db2, h1, h2, h3⟩ := submitReview_replaces assignedDB 5 1
    "weak" "REJECT" "good" "ACCEPT" 3 7 rfl (by decide)
  rw [h1]
  show ((applyE db1 (submitReview db1 5 1 "good" "ACCEPT" 7)).reviews.filter
    (reviewKey 1 5)) = _
  rw [h2]
  exact h3

/-- **C7.** Submitting a review or reviewer feedback succeeds only when
a `ReviewerAssignment` row exists for the (paper, caller) pair: with no
assignment both requests fail with Forbidden (returning before any
write, so no Review or Feedback row is created), and any successful
call implies the assignment exists. -/
theorem reviewer_requires_assignment (db : DB) (rid pid : Nat)
    (c rec msg : String) (t : Nat) :
    (hasAssignment db.assignments rid pid = false →
      submitReview db rid pid c rec t = .error .Forbidden ∧
      reviewerSubmitFeedback db rid pid msg = .error .Forbidden) ∧
    (∀ db2, submitReview db rid pid c rec t = .ok db2 →
      hasAssignment db.assignments rid pid = true) ∧
    (∀ db2, reviewerSubmitFeedback db rid pid msg = .ok db2 →
      hasAssignment db.assignments rid pid = true) := by
  refine ⟨?_, ?_, ?_⟩
  · intro h
    constructor
    · unfold submitReview
      rw [h]
      rfl
    · unfold reviewerSubmitFeedback
      rw [h]
      rfl
  · intro db2 h
    by_cases ha : hasAssignment db.assignments rid pid = true
    · exact ha
    · simp only [Bool.not_eq_true] at ha
      unfold submitReview at h
      rw [ha] at h
      exact absurd h (by simp)
  · intro db2 h
    by_cases ha : hasAssignment db.assignments rid pid = true
    · exact ha
    · simp only [Bool.not_eq_true] at ha
      unfold reviewerSubmitFeedback at h
      rw [ha] at h
      exact absurd h (by simp)

/-- Witness for C7: user 5 is not assigned to the paper of `pendingDB`,
so both reviewer endpoints answer Forbidden. -/
theorem reviewer_requires_assignment_witness :
    submitReview pendingDB 5 1 "c" "ACCEPT" 0 = .error .Forbidden ∧
    reviewerSubmitFeedback pendingDB 5 1 "m" = .error .Forbidden :=
  (reviewer_requires_assignment pendingDB 5 1 "c" "ACCEPT" "m" 0).1 rfl

theorem not_mem_removeStoredFile (ref : String) (files : List String) :
    ref ∉ removeStoredFile ref files := by
  intro h
  have := (List.mem_filter.mp h).2
  simp at this

theorem paper_eq_of_nodup_ids (ps : List Paper)
    (hids : (ps.map (fun q => q.id)).Nodup)
    (p q : Paper) (hp : p ∈ ps) (hq : q ∈ ps) (heq : p.id = q.id) :
    p = q :=
  List.inj_on_of_nodup_map hids hp hq heq

theorem findPaper_of_find_author (db : DB) (aid pid : Nat) (p : Paper)
    (hids : (db.papers.map (fun q => q.id)).Nodup)
    (hp : db.papers.find? (fun q => q.id == pid && q.authorId == aid) =
      some p) :
    findPaper db pid = some p := by
  have hpmem : p ∈ db.papers := List.mem_of_find?_eq_some hp
  have hpkey := List.find?_some hp
  simp only [Bool.and_eq_true, beq_iff_eq] at hpkey
  obtain ⟨hpid, _⟩ := hpkey
  have hsome : (db.papers.find? (fun q => q.id == pid)).isSome := by
    rw [List.find?_isSome]
    exact ⟨p, hpmem, by simp [hpid]⟩
  obtain ⟨q, hq⟩ := Option.isSome_iff_exists.mp hsome
  have hqmem : q ∈ db.papers := List.mem_of_find?_eq_some hq
  have hqkey := List.find?_some hq
  simp only [beq_iff_eq] at hqkey
  have heq : q = p :=
    paper_eq_of_nodup_ids db.papers hids q p hqmem hpmem
      (by rw [hqkey, hpid])
  unfold findPaper
  rw [hq, heq]

theorem findPaper_replaceFile (db db2 : DB) (pid : Nat) (nf : String)
    (p : Paper) (hf : findPaper db pid = some p)
    (hpap : db2.papers = replaceFile pid nf db.papers) :
    findPaper db2 pid =
      some { p with fileUrl := nf, status := "RESUBMITTED" } := by
  unfold findPaper at hf ⊢
  have hkey := List.find?_some hf
  simp only [beq_iff_eq] at hkey
  rw [hpap, replaceFile,
    find?_map_id_pres _ (fun q => by by_cases h : q.id = pid <;> simp [h])
      pid db.papers, hf]
  simp [hkey]

/-- **C4.** For an existing paper of the calling primary author (in a
store with unique paper ids): when the status is not
`REVISION_REQUIRED`, resubmission fails with a Conflict error naming
the status, the `papers` table is untouched (so `fileUrl` and `status`
are unchanged), and the newly uploaded file is removed from the file
store (no orphaned upload); when the status is `REVISION_REQUIRED`,
resubmission succeeds, sets status `RESUBMITTED`, and replaces
`fileUrl` with the new file. -/
theorem resubmit_correct (db : DB) (aid pid : Nat) (newFile : String)
    (p : Paper)
    (hp : db.papers.find? (fun q => q.id == pid && q.authorId == aid) =
      some p)
    (hids : (db.papers.map (fun q => q.id)).Nodup) :
    (p.status ≠ "REVISION_REQUIRED" →
      (resubmitPaper db aid pid newFile).1 = .error (.Conflict
        ("Paper cannot be resubmitted with status: " ++ p.status)) ∧
      ((resubmitPaper db aid pid newFile).2).papers = db.papers ∧
      newFile ∉ ((resubmitPaper db aid pid newFile).2).storedFiles) ∧
    (p.status = "REVISION_REQUIRED" →
      (resubmitPaper db aid pid newFile).1 = .ok () ∧
      statusOf (resubmitPaper db aid pid newFile).2 pid =
        some "RESUBMITTED" ∧
      fileUrlOf (resubmitPaper db aid pid newFile).2 pid = some newFile) := by
  have hfp : findPaper db pid = some p :=
    findPaper_of_find_author db aid pid p hids hp
  constructor
  · intro hs
    have hb : (p.status == "REVISION_REQUIRED") = false := by simp [hs]
    have hred : resubmitPaper db aid pid newFile =
        (.error (.Conflict
          ("Paper cannot be resubmitted with status: " ++ p.status)),
         { db with storedFiles := removeStoredFile newFile db.storedFiles }) := by
      unfold resubmitPaper
      rw [hp]
      simp [hb]
    rw [hred]
    exact ⟨rfl, rfl, not_mem_removeStoredFile newFile db.storedFiles⟩
  · intro hs
    have hb : (p.status == "REVISION_REQUIRED") = true := by simp [hs]
    by_cases hfu : (p.fileUrl == "") = true
    · have hred : resubmitPaper db aid pid newFile =
          (.ok (), { db with papers := replaceFile pid newFile db.papers }) := by
        unfold resubmitPaper
        rw [hp]
        simp [hb, hfu]
      rw [hred]
      have hf2 := findPaper_replaceFile db
        { db with papers := replaceFile pid newFile db.papers }
        pid newFile p hfp rfl
      refine ⟨rfl, ?_, ?_⟩
      · unfold statusOf
        rw [hf2]
        rfl
      · unfold fileUrlOf
        rw [hf2]
        rfl
    · have hfu2 : (p.fileUrl == "") = false := by
        simp only [Bool.not_eq_true] at hfu
        exact hfu
      have hred : resubmitPaper db aid pid newFile =
          (.ok (),
           { db with
             papers := replaceFile pid newFile db.papers,
             storedFiles := removeStoredFile p.fileUrl db.storedFiles }) := by
        unfold resubmitPaper
        rw [hp]
        simp [hb, hfu2]
      rw [hred]
      have hf2 := findPaper_replaceFile db
        { db with
          papers := replaceFile pid newFile db.papers,
          storedFiles := removeStoredFile p.fileUrl db.storedFiles }
        pid newFile p hfp rfl
      refine ⟨rfl, ?_, ?_⟩
      · unfold statusOf
        rw [hf2]
        rfl
      · unfold fileUrlOf
        rw [hf2]
        rfl

/-- Witness for C4: author 10 resubmits paper 1 of `revisionDB`, which
is in `REVISION_REQUIRED`, so the success branch applies. -/
theorem resubmit_correct_witness :
    (resubmitPaper revisionDB 10 1 "conference_papers/new").1 = .ok () ∧
    statusOf (resubmitPaper revisionDB 10 1 "conference_papers/new").2 1 =
      some "RESUBMITTED" ∧
    fileUrlOf (resubmitPaper revisionDB 10 1 "conference_papers/new").2 1 =
      some "conference_papers/new" :=
  (resubmit_correct revisionDB 10 1 "conference_papers/new"
    { id := 1, title := "T", fileUrl := "conference_papers/old",
      status := "REVISION_REQUIRED", authorId := 10 }
    rfl (by decide)).2 rfl

theorem all_filter_self {α : Type} (p : α → Bool) (l : List α) :
    (l.filter p).all p = true := by
  rw [List.all_eq_true]
  intro x hx
  exact (List.mem_filter.mp hx).2

theorem destroyPaperFile_rows (paper : Paper) (db : DB) :
    (destroyPaperFile paper db).papers = db.papers ∧
    (destroyPaperFile paper db).authors = db.authors ∧
    (destroyPaperFile paper db).reviews = db.reviews ∧
    (destroyPaperFile paper db).assignments = db.assignments ∧
    (destroyPaperFile paper db).feedbacks = db.feedbacks := by
  unfold destroyPaperFile
  split <;> exact ⟨rfl, rfl, rfl, rfl, rfl⟩

/-- **C8.** Deleting an existing paper removes, in the single
delete-cascade transaction, every Feedback, Review, ReviewerAssignment
and Author row referencing it together with the Paper row itself: after
success no row of the four dependent tables references the deleted id
and the paper is gone; when the transaction fails, all five row tables
are exactly as before the call. -/
theorem deletePaper_cascade (db : DB) (pid : Nat) (p : Paper)
    (hp : findPaper db pid = some p) :
    ((deletePaper db pid true).1 = .ok () ∧
      ((deletePaper db pid true).2).feedbacks.all
        (fun f => !(f.paperId == pid)) = true ∧
      ((deletePaper db pid true).2).reviews.all
        (fun r => !(r.paperId == pid)) = true ∧
      ((deletePaper db pid true).2).assignments.all
        (fun a => !(a.paperId == pid)) = true ∧
      ((deletePaper db pid true).2).authors.all
        (fun a => !(a.paperId == pid)) = true ∧
      findPaper (deletePaper db pid true).2 pid = none) ∧
    ((deletePaper db pid false).1 = .error .ServerError ∧
      ((deletePaper db pid false).2).papers = db.papers ∧
      ((deletePaper db pid false).2).authors = db.authors ∧
      ((deletePaper db pid false).2).reviews = db.reviews ∧
      ((deletePaper db pid false).2).assignments = db.assignments ∧
      ((deletePaper db pid false).2).feedbacks = db.feedbacks) := by
  have hredT : deletePaper db pid true =
      (.ok (), deletePaperTx pid (destroyPaperFile p db)) := by
    unfold deletePaper
    rw [hp]
    rfl
  have hredF : deletePaper db pid false =
      (.error .ServerError, destroyPaperFile p db) := by
    unfold deletePaper
    rw [hp]
    rfl
  obtain ⟨r1, r2, r3, r4, r5⟩ := destroyPaperFile_rows p db
  constructor
  · rw [hredT]
    refine ⟨rfl, ?_, ?_, ?_, ?_, ?_⟩
    · exact all_filter_self _ _
    · exact all_filter_self _ _
    · exact all_filter_self _ _
    · exact all_filter_self _ _
    · unfold findPaper deletePaperTx
      rw [List.find?_eq_none]
      intro q hq
      have := (List.mem_filter.mp hq).2
      simp only [Bool.not_eq_true'] at this
      simp [this]
  · rw [hredF]
    exact ⟨rfl, r1, r2, r3, r4, r5⟩

/-- Witness for C8: deleting paper 1 of `fullDB` with a succeeding
transaction leaves no row referencing it. -/
theorem deletePaper_cascade_witness :
    (deletePaper fullDB 1 true).1 = .ok () ∧
    findPaper (deletePaper fullDB 1 true).2 1 = none :=
  ⟨((deletePaper_cascade fullDB 1
      { id := 1, title := "T", fileUrl := "conference_papers/f1",
        status := "UNDER_REVIEW", authorId := 10 } rfl).1).1,
   ((deletePaper_cascade fullDB 1
      { id := 1, title := "T", fileUrl := "conference_papers/f1",
        status := "UNDER_REVIEW", authorId := 10 } rfl).1).2.2.2.2.2⟩

/-- **C10.** The stored manuscript file is destroyed at the file-storage
boundary before the delete transaction runs: when the transaction fails
on an existing paper with a non-empty `fileUrl`, the rows of all five
tables are still exactly as before — yet the manuscript file is no
longer in the file store, so the state-unchanged-on-error guarantee
does not extend to the file. -/
theorem deleteFile_lost_on_tx_failure (db : DB) (pid : Nat) (p : Paper)
    (hp : findPaper db pid = some p) (hfu : p.fileUrl ≠ "") :
    (deletePaper db pid false).1 = .error .ServerError ∧
    ((deletePaper db pid false).2).papers = db.papers ∧
    ((deletePaper db pid false).2).authors = db.authors ∧
    ((deletePaper db pid false).2).reviews = db.reviews ∧
    ((deletePaper db pid false).2).assignments = db.assignments ∧
    ((deletePaper db pid false).2).feedbacks = db.feedbacks ∧
    p.fileUrl ∉ ((deletePaper db pid false).2).storedFiles := by
  have hredF : deletePaper db pid false =
      (.error .ServerError, destroyPaperFile p db) := by
    unfold deletePaper
    rw [hp]
    rfl
  obtain ⟨r1, r2, r3, r4, r5⟩ := destroyPaperFile_rows p db
  rw [hredF]
  refine ⟨rfl, r1, r2, r3, r4, r5, ?_⟩
  unfold destroyPaperFile
  rw [if_neg (by simpa using hfu)]
  exact not_mem_removeStoredFile p.fileUrl db.storedFiles

/-- Witness for C10: on `fullDB` with a failing transaction the paper
and its rows survive but the stored file is gone. -/
theorem deleteFile_lost_on_tx_failure_witness :
    (deletePaper fullDB 1 false).1 = .error .ServerError ∧
    ((deletePaper fullDB 1 false).2).papers = fullDB.papers ∧
    "conference_papers/f1" ∉ ((deletePaper fullDB 1 false).2).storedFiles := by
  have h := deleteFile_lost_on_tx_failure fullDB 1
    { id := 1, title := "T", fileUrl := "conference_papers/f1",
      status := "UNDER_REVIEW", authorId := 10 } rfl (by decide)
  exact ⟨h.1, h.2.1, h.2.2.2.2.2.2⟩

/-- Counterexample to C5 as stated: on `nonCorrDB`, caller 99 matches
only a non-corresponding Author entry by email, yet the code grants
access (the view query finds the paper and feedback succeeds), while
the spec's predicate — primary author or corresponding-entry email
match — denies it. -/
theorem authorAccess_counterexample :
    authorCanAccess nonCorrDB 99 "co@x.com" 1 = true ∧
    authorCanAccessSpec nonCorrDB 99 "co@x.com" 1 = false ∧
    authorSubmitFeedback nonCorrDB 99 "co@x.com" 1 "m" =
      .ok { nonCorrDB with feedbacks := nonCorrDB.feedbacks ++
        [{ paperId := 1, senderId := 99, message := "m" }] } :=
  ⟨rfl, rfl, rfl⟩

/-- **C5 (amended).** A paper-scoped author action (view paper, submit
feedback) is permitted if and only if the caller is the paper's primary
author or the caller's email equals the email of ANY Author entry on
that paper — the `isCorresponding` flag is not consulted, so an email
match against a non-corresponding entry grants access too. -/
theorem authorAccess_amended (db : DB) (uid : Nat) (email : String)
    (pid : Nat) (msg : String) :
    (authorCanAccess db uid email pid = true ↔
      ∃ p, p ∈ db.papers ∧ p.id = pid ∧
        (p.authorId = uid ∨
          ∃ a, a ∈ db.authors ∧ a.paperId = p.id ∧
            a.email = some email)) ∧
    ((∃ db2, authorSubmitFeedback db uid email pid msg = .ok db2) ↔
      authorCanAccess db uid email pid = true) := by
  constructor
  · unfold authorCanAccess getAuthorPaperById
    rw [List.find?_isSome]
    simp [List.any_eq_true]
  · cases hx : getAuthorPaperById db uid email pid with
    | none =>
      constructor
      · rintro ⟨db2, h⟩
        unfold authorSubmitFeedback at h
        rw [hx] at h
        exact absurd h (by simp)
      · intro h
        unfold authorCanAccess at h
        rw [hx] at h
        exact absurd h (by simp)
    | some q =>
      constructor
      · intro _
        unfold authorCanAccess
        rw [hx]
        rfl
      · intro _
        refine ⟨{ db with feedbacks := db.feedbacks ++
          [{ paperId := pid, senderId := uid, message := msg }] }, ?_⟩
        unfold authorSubmitFeedback
        rw [hx]

theorem statusOf_map (db db2 : DB) (f : Paper → Paper)
    (hf : ∀ p, (f p).id = p.id)
    (hpap : db2.papers = db.papers.map f) (pid : Nat) :
    statusOf db2 pid = (findPaper db pid).map (fun p => (f p).status) := by
  unfold statusOf findPaper
  rw [hpap, find?_map_id_pres f hf pid db.papers]
  cases db.papers.find? (fun p => p.id == pid) <;> rfl

theorem statusOf_elim (db : DB) (pid : Nat) (s : String)
    (h : statusOf db pid = some s) :
    ∃ p0, findPaper db pid = some p0 ∧ p0.status = s := by
  unfold statusOf at h
  cases hf : findPaper db pid with
  | none => rw [hf] at h; exact absurd h (by simp)
  | some p0 => rw [hf] at h; exact ⟨p0, rfl, by simpa using h⟩

theorem assign_ok_elim (db : DB) (q : Nat) (rids : List Nat) (db2 : DB)
    (h : assignReviewersToPaper db q rids = .ok db2) :
    (∃ p2, findPaper db q = some p2 ∧
      (p2.status == "PENDING_REVIEW" || p2.status == "RESUBMITTED") = true ∧
      db2.papers = setStatus q "UNDER_REVIEW" db.papers) ∨
    db2.papers = db.papers := by
  unfold assignReviewersToPaper at h
  split at h
  · exact absurd h (by simp)
  · split at h
    · exact absurd h (by simp)
    · rename_i p2 hf
      split at h
      · rename_i hcond
        cases h
        exact Or.inl ⟨p2, hf, hcond, rfl⟩
      · cases h
        exact Or.inr rfl

theorem submitReview_ok_elim (db : DB) (rid pid : Nat) (c rec : String)
    (t : Nat) (db2 : DB) (h : submitReview db rid pid c rec t = .ok db2) :
    db2.papers = bumpToUnderReview pid db.papers := by
  unfold submitReview at h
  split at h
  · cases h; rfl
  · exact absurd h (by simp)

theorem resubmit_snd_papers (db : DB) (aid q : Nat) (nf : String) :
    ((resubmitPaper db aid q nf).2.papers = db.papers) ∨
    (∃ p2, db.papers.find? (fun r => r.id == q && r.authorId == aid) =
        some p2 ∧ p2.status = "REVISION_REQUIRED" ∧
      (resubmitPaper db aid q nf).2.papers = replaceFile q nf db.papers) := by
  unfold resubmitPaper
  split
  · exact Or.inl rfl
  · rename_i p2 hf
    split
    · rename_i hb
      split
      · exact Or.inr ⟨p2, hf, by simpa using hb, rfl⟩
      · exact Or.inr ⟨p2, hf, by simpa using hb, rfl⟩
    · exact Or.inl rfl

theorem deletePaper_snd_papers (db : DB) (pid : Nat) (txOk : Bool) :
    (deletePaper db pid txOk).2.papers = db.papers ∨
    (deletePaper db pid txOk).2.papers =
      db.papers.filter (fun p => !(p.id == pid)) := by
  unfold deletePaper
  split
  · exact Or.inl rfl
  · rename_i p hf
    split
    · refine Or.inr ?_
      show (deletePaperTx pid (destroyPaperFile p db)).papers = _
      unfold deletePaperTx
      rw [(destroyPaperFile_rows p db).1]
    · exact Or.inl (destroyPaperFile_rows p db).1

theorem authorFeedback_ok_elim (db : DB) (uid : Nat) (em : String)
    (pid : Nat) (msg : String) (db2 : DB)
    (h : authorSubmitFeedback db uid em pid msg = .ok db2) :
    db2.papers = db.papers := by
  unfold authorSubmitFeedback at h
  split at h
  · exact absurd h (by simp)
  · cases h; rfl

theorem reviewerFeedback_ok_elim (db : DB) (rid pid : Nat) (msg : String)
    (db2 : DB) (h : reviewerSubmitFeedback db rid pid msg = .ok db2) :
    db2.papers = db.papers := by
  unfold reviewerSubmitFeedback at h
  split at h
  · cases h; rfl
  · exact absurd h (by simp)

theorem updateStatus_ok_elim (db : DB) (q : Nat) (target : String)
    (db2 : DB) (h : updatePaperStatus db q target = .ok db2) :
    allowedStatuses.contains target = true ∧
    db2 = { db with papers := setStatus q target db.papers } := by
  unfold updatePaperStatus at h
  split at h
  · exact absurd h (by simp)
  · rename_i hc
    split at h
    · exact absurd h (by simp)
    · cases h
      refine ⟨?_, rfl⟩
      simpa using hc

theorem terminal_not_reviewable (s : String)
    (hterm : s = "ACCEPTED" ∨ s = "REJECTED") :
    ((s == "PENDING_REVIEW") || (s == "RESUBMITTED")) = false := by
  rcases hterm with h | h <;> subst h <;> rfl

theorem statusOf_congr (db db2 : DB) (hpap : db2.papers = db.papers)
    (pid : Nat) : statusOf db2 pid = statusOf db pid := by
  unfold statusOf findPaper
  rw [hpap]

/-- Counterexample to C6 as stated: paper 1 of `acceptedDB` is
`ACCEPTED`, yet the set-final-status action moves it to
`REVISION_REQUIRED`: `updatePaperStatus` validates only the requested
target and never the current status, so `ACCEPTED`/`REJECTED` papers
can still change status. -/
theorem terminal_counterexample :
    statusOf acceptedDB 1 = some "ACCEPTED" ∧
    updatePaperStatus acceptedDB 1 "REVISION_REQUIRED" =
      .ok { acceptedDB with
            papers := setStatus 1 "REVISION_REQUIRED" acceptedDB.papers } ∧
    statusOf { acceptedDB with
        papers := setStatus 1 "REVISION_REQUIRED" acceptedDB.papers } 1 =
      some "REVISION_REQUIRED" :=
  ⟨rfl, rfl, rfl⟩

/-- **C6 (amended).** In a store with unique paper ids, `ACCEPTED` and
`REJECTED` are terminal with respect to approve, assign-reviewers,
submit-review and resubmit: none of these ever changes such a paper's
status.  Set-final-status is the exception: a successful call can still
overwrite the status of an `ACCEPTED`/`REJECTED` paper, but only with a
member of its allow-list `{ACCEPTED, REJECTED, REVISION_REQUIRED}`. -/
theorem terminal_amended (db : DB) (pid : Nat) (s : String)
    (hids : (db.papers.map (fun q => q.id)).Nodup)
    (hs : statusOf db pid = some s)
    (hterm : s = "ACCEPTED" ∨ s = "REJECTED") :
    (∀ q, statusOf (applyE db (approvePaper db q)) pid = some s) ∧
    (∀ q rids,
      statusOf (applyE db (assignReviewersToPaper db q rids)) pid = some s) ∧
    (∀ rid q c rec t,
      statusOf (applyE db (submitReview db rid q c rec t)) pid = some s) ∧
    (∀ aid q nf, statusOf (resubmitPaper db aid q nf).2 pid = some s) ∧
    (∀ q target db2, updatePaperStatus db q target = .ok db2 →
      allowedStatuses.contains target = true ∧
      (statusOf db2 pid = some s ∨ statusOf db2 pid = some target)) := by
  obtain ⟨p0, hp0, hp0s⟩ := statusOf_elim db pid s hs
  have hp0mem : p0 ∈ db.papers := List.mem_of_find?_eq_some hp0
  refine ⟨?_, ?_, ?_, ?_, ?_⟩
  · intro q
    cases h : approvePaper db q with
    | error e => simpa [applyE] using hs
    | ok db2 =>
      obtain ⟨p2, hf2, hs2, hdb2⟩ := approve_ok_elim db q db2 h
      subst hdb2
      have hne : ¬(p0.id = q) := by
        intro hcontra
        have hp2mem := List.mem_of_find?_eq_some hf2
        have hp2id := List.find?_some hf2
        simp only [beq_iff_eq] at hp2id
        have heq : p0 = p2 := paper_eq_of_nodup_ids db.papers hids p0 p2
          hp0mem hp2mem (by rw [hcontra, hp2id])
        have hsa : s = "PENDING_APPROVAL" := by
          rw [← hp0s, heq, hs2]
        rcases hterm with h1 | h1 <;> rw [h1] at hsa <;>
          exact absurd hsa (by decide)
      rw [statusOf_map db _
        (fun p => if p.id == q then { p with status := "PENDING_REVIEW" }
          else p)
        (fun p => by by_cases hc : p.id = q <;> simp [hc]) rfl pid, hp0]
      simp [hne, hp0s]
  · intro q rids
    cases h : assignReviewersToPaper db q rids with
    | error e => simpa [applyE] using hs
    | ok db2 =>
      rcases assign_ok_elim db q rids db2 h with ⟨p2, hf2, hs2, hpap⟩ | hpap
      · have hne : ¬(p0.id = q) := by
          intro hcontra
          have hp2mem := List.mem_of_find?_eq_some hf2
          have hp2id := List.find?_some hf2
          simp only [beq_iff_eq] at hp2id
          have heq : p0 = p2 := paper_eq_of_nodup_ids db.papers hids p0 p2
            hp0mem hp2mem (by rw [hcontra, hp2id])
          rw [← heq, hp0s] at hs2
          rw [terminal_not_reviewable s hterm] at hs2
          exact absurd hs2 (by simp)
        show statusOf db2 pid = some s
        rw [statusOf_map db db2
          (fun p => if p.id == q then { p with status := "UNDER_REVIEW" }
            else p)
          (fun p => by by_cases hc : p.id = q <;> simp [hc]) hpap pid, hp0]
        simp [hne, hp0s]
      · show statusOf db2 pid = some s
        rw [statusOf_congr db db2 hpap pid]
        exact hs
  · intro rid q c rec t
    cases h : submitReview db rid q c rec t with
    | error e => simpa [applyE] using hs
    | ok db2 =>
      have hpap := submitReview_ok_elim db rid q c rec t db2 h
      have hfix : ¬(s = "PENDING_REVIEW" ∨ s = "RESUBMITTED") := by
        rcases hterm with h1 | h1 <;> subst h1 <;> decide
      show statusOf db2 pid = some s
      rw [statusOf_map db db2
        (fun p => if p.id == q && (p.status == "PENDING_REVIEW"
            || p.status == "RESUBMITTED")
          then { p with status := "UNDER_REVIEW" } else p)
        (fun p => by
          by_cases hc : (p.id == q && (p.status == "PENDING_REVIEW"
            || p.status == "RESUBMITTED")) = true
          · simp [hc]
          · simp only [Bool.not_eq_true] at hc
            simp [hc]) hpap pid, hp0]
      simp [hfix, hp0s]
  · intro aid q nf
    rcases resubmit_snd_papers db aid q nf with hpap | ⟨p2, hf2, hs2, hpap⟩
    · rw [statusOf_congr db (resubmitPaper db aid q nf).2 hpap pid]
      exact hs
    · have hne : ¬(p0.id = q) := by
        intro hcontra
        have hp2mem := List.mem_of_find?_eq_some hf2
        have hp2id := List.find?_some hf2
        simp only [Bool.and_eq_true, beq_iff_eq] at hp2id
        have heq : p0 = p2 := paper_eq_of_nodup_ids db.papers hids p0 p2
          hp0mem hp2mem (by rw [hcontra, hp2id.1])
        have hsa : s = "REVISION_REQUIRED" := by
          rw [← hp0s, heq, hs2]
        rcases hterm with h1 | h1 <;> rw [h1] at hsa <;>
          exact absurd hsa (by decide)
      rw [statusOf_map db (resubmitPaper db aid q nf).2
        (fun p => if p.id == q
          then { p with fileUrl := nf, status := "RESUBMITTED" } else p)
        (fun p => by by_cases hc : p.id = q <;> simp [hc]) hpap pid, hp0]
      simp [hne, hp0s]
  · intro q target db2 h
    obtain ⟨hallow, hdb2⟩ := updateStatus_ok_elim db q target db2 h
    subst hdb2
    refine ⟨hallow, ?_⟩
    rw [statusOf_map db _
      (fun p => if p.id == q then { p with status := target } else p)
      (fun p => by by_cases hc : p.id = q <;> simp [hc]) rfl pid, hp0]
    by_cases hc : p0.id = q
    · right
      simp [hc]
    · left
      simp [hc, hp0s]

/-- Witness for C6 (amended) at `acceptedDB`: approve and resubmit on
the `ACCEPTED` paper leave its status `ACCEPTED`, and a successful
set-final-status call lands on its allow-listed target. -/
theorem terminal_amended_witness :
    statusOf (applyE acceptedDB (approvePaper acceptedDB 1)) 1 =
      some "ACCEPTED" ∧
    statusOf (resubmitPaper acceptedDB 10 1 "conference_papers/n").2 1 =
      some "ACCEPTED" :=
  ⟨(terminal_amended acceptedDB 1 "ACCEPTED" (by decide) rfl
      (Or.inl rfl)).1 1,
   (terminal_amended acceptedDB 1 "ACCEPTED" (by decide) rfl
      (Or.inl rfl)).2.2.2.1 10 1 "conference_papers/n"⟩

theorem statusesOk_append (ps qs : List Paper)
    (h1 : statusesOk ps = true) (h2 : statusesOk qs = true) :
    statusesOk (ps ++ qs) = true := by
  unfold statusesOk at *
  rw [List.all_eq_true] at *
  intro x hx
  rcases List.mem_append.mp hx with h | h
  · exact h1 x h
  · exact h2 x h

theorem statusesOk_map (ps : List Paper) (f : Paper → Paper)
    (hf : ∀ p ∈ ps, validStatuses.contains p.status = true →
      validStatuses.contains (f p).status = true)
    (h : statusesOk ps = true) : statusesOk (ps.map f) = true := by
  unfold statusesOk at *
  rw [List.all_eq_true] at *
  intro x hx
  obtain ⟨p, hp, rfl⟩ := List.mem_map.mp hx
  exact hf p hp (h p hp)

theorem statusesOk_filter (ps : List Paper) (g : Paper → Bool)
    (h : statusesOk ps = true) : statusesOk (ps.filter g) = true := by
  unfold statusesOk at *
  rw [List.all_eq_true] at *
  intro x hx
  exact h x (List.mem_filter.mp hx).1

theorem setStatus_statusesOk (q : Nat) (s : String) (ps : List Paper)
    (hs : validStatuses.contains s = true) (h : statusesOk ps = true) :
    statusesOk (setStatus q s ps) = true := by
  unfold setStatus
  refine statusesOk_map ps _ ?_ h
  intro p _ hp
  by_cases hc : (p.id == q) = true
  · rw [if_pos hc]
    exact hs
  · rw [if_neg hc]
    exact hp

theorem bump_statusesOk (q : Nat) (ps : List Paper)
    (h : statusesOk ps = true) :
    statusesOk (bumpToUnderReview q ps) = true := by
  unfold bumpToUnderReview
  refine statusesOk_map ps _ ?_ h
  intro p _ hp
  by_cases hc : (p.id == q && (p.status == "PENDING_REVIEW"
      || p.status == "RESUBMITTED")) = true
  · rw [if_pos hc]
    rfl
  · rw [if_neg hc]
    exact hp

theorem replaceFile_statusesOk (q : Nat) (nf : String) (ps : List Paper)
    (h : statusesOk ps = true) :
    statusesOk (replaceFile q nf ps) = true := by
  unfold replaceFile
  refine statusesOk_map ps _ ?_ h
  intro p _ hp
  by_cases hc : (p.id == q) = true
  · rw [if_pos hc]
    rfl
  · rw [if_neg hc]
    exact hp

theorem allowed_sub_valid (t : String)
    (h : allowedStatuses.contains t = true) :
    validStatuses.contains t = true := by
  unfold allowedStatuses at h
  simp only [List.contains_cons, List.contains_nil, Bool.or_eq_true,
    beq_iff_eq] at h
  rcases h with h | h | h | h
  · subst h; rfl
  · subst h; rfl
  · subst h; rfl
  · exact absurd h (by simp)

theorem statusInv_step (db : DB) (a : Action)
    (hinv : statusInv db = true) :
    statusInv (applyAction db a) = true := by
  have hok : statusesOk db.papers = true := hinv
  cases a with
  | submit pid t f aid es =>
    show statusesOk (db.papers ++
      [{ id := pid, title := t, fileUrl := f,
         status := "PENDING_APPROVAL", authorId := aid }]) = true
    exact statusesOk_append _ _ hok rfl
  | approve pid =>
    show statusInv (applyE db (approvePaper db pid)) = true
    cases h : approvePaper db pid with
    | error e => exact hinv
    | ok db2 =>
      obtain ⟨p, hf, hs, hdb2⟩ := approve_ok_elim db pid db2 h
      subst hdb2
      show statusesOk (setStatus pid "PENDING_REVIEW" db.papers) = true
      exact setStatus_statusesOk pid _ db.papers rfl hok
  | assign pid rids =>
    show statusInv (applyE db (assignReviewersToPaper db pid rids)) = true
    cases h : assignReviewersToPaper db pid rids with
    | error e => exact hinv
    | ok db2 =>
      show statusesOk db2.papers = true
      rcases assign_ok_elim db pid rids db2 h with ⟨p2, _, _, hpap⟩ | hpap
      · rw [hpap]
        exact setStatus_statusesOk pid _ db.papers rfl hok
      · rw [hpap]
        exact hok
  | review rid pid c rec t =>
    show statusInv (applyE db (submitReview db rid pid c rec t)) = true
    cases h : submitReview db rid pid c rec t with
    | error e => exact hinv
    | ok db2 =>
      show statusesOk db2.papers = true
      rw [submitReview_ok_elim db rid pid c rec t db2 h]
      exact bump_statusesOk pid db.papers hok
  | setFinal pid target =>
    show statusInv (applyE db (updatePaperStatus db pid target)) = true
    cases h : updatePaperStatus db pid target with
    | error e => exact hinv
    | ok db2 =>
      obtain ⟨hallow, hdb2⟩ := updateStatus_ok_elim db pid target db2 h
      subst hdb2
      show statusesOk (setStatus pid target db.papers) = true
      exact setStatus_statusesOk pid target db.papers
        (allowed_sub_valid target hallow) hok
  | resubmit aid pid nf =>
    show statusesOk (resubmitPaper db aid pid nf).2.papers = true
    rcases resubmit_snd_papers db aid pid nf with hpap | ⟨_, _, _, hpap⟩
    · rw [hpap]
      exact hok
    · rw [hpap]
      exact replaceFile_statusesOk pid nf db.papers hok
  | delete pid txOk =>
    show statusesOk (deletePaper db pid txOk).2.papers = true
    rcases deletePaper_snd_papers db pid txOk with hpap | hpap
    · rw [hpap]
      exact hok
    · rw [hpap]
      exact statusesOk_filter db.papers _ hok
  | authorFeedback uid em pid msg =>
    show statusInv (applyE db (authorSubmitFeedback db uid em pid msg)) = true
    cases h : authorSubmitFeedback db uid em pid msg with
    | error e => exact hinv
    | ok db2 =>
      show statusesOk db2.papers = true
      rw [authorFeedback_ok_elim db uid em pid msg db2 h]
      exact hok
  | reviewerFeedback rid pid msg =>
    show statusInv (applyE db (reviewerSubmitFeedback db rid pid msg)) = true
    cases h : reviewerSubmitFeedback db rid pid msg with
    | error e => exact hinv
    | ok db2 =>
      show statusesOk db2.papers = true
      rw [reviewerFeedback_ok_elim db rid pid msg db2 h]
      exact hok

theorem statusInv_steps (acts : List Action) (db : DB)
    (hinv : statusInv db = true) :
    statusInv (acts.foldl applyAction db) = true := by
  induction acts generalizing db with
  | nil => simpa using hinv
  | cons a acts ih => exact ih (applyAction db a) (statusInv_step db a hinv)

/-- **C9.** For every store satisfying the status invariant and every
sequence of lifecycle operations, every paper's status stays inside the
fixed enumerated set {PENDING_APPROVAL, PENDING_REVIEW, UNDER_REVIEW,
RESUBMITTED, ACCEPTED, REJECTED, REVISION_REQUIRED}: no handler assigns
an out-of-set value; and set-final-status rejects any requested target
outside {ACCEPTED, REJECTED, REVISION_REQUIRED} with a validation error
and no state change. -/
theorem statusInv_preserved (db : DB) (acts : List Action)
    (hinv : statusInv db = true) :
    statusInv (acts.foldl applyAction db) = true ∧
    (∀ pid target, allowedStatuses.contains target = false →
      updatePaperStatus db pid target = .error .Validation ∧
      applyAction db (.setFinal pid target) = db) := by
  refine ⟨statusInv_steps acts db hinv, ?_⟩
  intro pid target h
  have hupd : updatePaperStatus db pid target = .error .Validation := by
    unfold updatePaperStatus
    rw [h]
    rfl
  refine ⟨hupd, ?_⟩
  show applyE db (updatePaperStatus db pid target) = db
  rw [hupd]
  rfl

/-- Witness for C9: the scenario approve → assign → review → accept on
`pendingDB` keeps every status in the fixed set, and an off-list final
target (even the lifecycle value `UNDER_REVIEW`) is rejected with a
validation error leaving the store unchanged. -/
theorem statusInv_preserved_witness :
    statusInv ([Action.approve 1, Action.assign 1 [5],
      Action.review 5 1 "ok" "ACCEPT" 3, Action.setFinal 1 "ACCEPTED"
      ].foldl applyAction pendingDB) = true ∧
    updatePaperStatus pendingDB 1 "UNDER_REVIEW" = .error .Validation ∧
    applyAction pendingDB (.setFinal 1 "UNDER_REVIEW") = pendingDB := by
  have h := statusInv_preserved pendingDB [Action.approve 1,
    Action.assign 1 [5], Action.review 5 1 "ok" "ACCEPT" 3,
    Action.setFinal 1 "ACCEPTED"] rfl
  exact ⟨h.1, (h.2 1 "UNDER_REVIEW" rfl).1, (h.2 1 "UNDER_REVIEW" rfl).2⟩

end ConferenceSystem
